import Mathlib

/-!
Shallow embedding of the core of the reservas_libras backend
(controllers reservaController.ts and periodoController.ts and the
middleware authorization.ts).

Modelling conventions:
* decimal pound amounts are rationals; parseDecimal mirrors the source
  rounding to two decimals;
* calendar dates are integers: parseDateWithoutTimezone canonicalises a
  YYYY-MM-DD string to local noon, so two parsed dates compare equal via
  getTime exactly when the day numbers are equal;
* the persistent store is an explicit State value; every controller is a
  function from State to a State paired with an Except result, returning
  the unchanged state where the source throws before writing;
* prisma query and mutation calls are embedded as list operations on
  State; a reservation row carries the denormalised owner name and email
  that the source reads through the included user relation.
-/

namespace ReservasLibras

/-- User roles (config/constants.ts ROLES). -/
inductive Role where
  | ADMIN_PRINCIPAL
  | Usuario
deriving DecidableEq, Repr, Fintype

/-- Reservation lifecycle status (config/constants.ts STATUS_RESERVA). -/
inductive StatusReserva where
  | PENDIENTE
  | CONFIRMADA
  | ENVIADA
  | ENTREGADA
  | CANCELADA
deriving DecidableEq, Repr, Fintype

/-- String name of a status, as it appears in error messages. -/
def StatusReserva.str : StatusReserva → String
  | .PENDIENTE => "PENDIENTE"
  | .CONFIRMADA => "CONFIRMADA"
  | .ENVIADA => "ENVIADA"
  | .ENTREGADA => "ENTREGADA"
  | .CANCELADA => "CANCELADA"

/-- Whether a status is CANCELADA (the status notIn CANCELADA prisma filter). -/
def StatusReserva.isCancelada : StatusReserva → Bool
  | .CANCELADA => true
  | _ => false

/-- Position of a status along the lifecycle; every transition accepted by
canChangeReservaStatus strictly increases it. -/
def StatusReserva.rank : StatusReserva → ℕ
  | .PENDIENTE => 0
  | .CONFIRMADA => 1
  | .ENVIADA => 2
  | .ENTREGADA => 3
  | .CANCELADA => 4

/-- A reservation row (prisma model Reserva), with the owner name and email
denormalised from the included user relation. -/
structure Reserva where
  id : ℕ
  userId : ℕ
  userName : String
  userEmail : String
  periodoId : ℕ
  libras : ℚ
  fecha : ℤ
  estado : String
  observaciones : Option String
  status : StatusReserva
  fechaConfirmacion : Option ℤ
  fechaEnvio : Option ℤ
  fechaEntrega : Option ℤ
deriving DecidableEq, Repr

/-- A capacity period row (prisma model PeriodoLibras) together with its
reservation rows. -/
structure Periodo where
  id : ℕ
  librasTotales : ℚ
  fechaEnvio : ℤ
  isActive : Bool
  reservas : List Reserva
deriving DecidableEq, Repr

/-- Historical period snapshot (prisma model HistoricoPeriodo). -/
structure HistoricoPeriodo where
  librasTotales : ℚ
  librasReservadas : ℚ
  librasDisponibles : ℚ
  fechaEnvio : ℤ
  totalReservas : ℕ
  totalUsuarios : ℕ
deriving DecidableEq, Repr

/-- Historical reservation snapshot (prisma model HistoricoReserva). -/
structure HistoricoReserva where
  userId : ℕ
  userName : String
  userEmail : String
  libras : ℚ
  fecha : ℤ
  estado : String
  observaciones : Option String
  status : StatusReserva
  periodoFechaEnvio : ℤ
  reservaOriginalId : ℕ
deriving DecidableEq, Repr

/-- The persistent store: the three tables the core mutates. -/
structure State where
  periodos : List Periodo
  historicoPeriodos : List HistoricoPeriodo
  historicoReservas : List HistoricoReserva
deriving DecidableEq, Repr

/-- The authenticated actor reference (req.user). -/
structure UserRef where
  id : ℕ
  name : String
  email : String
deriving DecidableEq, Repr

/-- Sum of the pounds of the non-cancelled reservations of a list; mirrors
the reduce over reservas fetched with the filter status notIn CANCELADA. -/
def sumLibrasNoCanceladas (rs : List Reserva) : ℚ :=
  ((rs.filter (fun r => !r.status.isCancelada)).map (fun r => r.libras)).sum

/-- utils/validators.ts parseDecimal: round to two decimals
(Math.round (x * 100) / 100). -/
def parseDecimal (x : ℚ) : ℚ :=
  ((round (x * 100) : ℤ) : ℚ) / 100

/-- A rational exactly representable with two decimals, so that the
two-decimal rendering toFixed 2 of the source is exact on it. -/
def TwoDec (q : ℚ) : Prop := ∃ n : ℤ, q = (n : ℚ) / 100

/-- Result of the status-change permission check (authorization.ts). -/
structure Decision where
  allowed : Bool
  reason : Option String
deriving DecidableEq, Repr

/-- The validTransitions record of authorization.ts for ADMIN_PRINCIPAL;
a key absent from the record yields no legal destination. -/
def adminValidTransitions : StatusReserva → List StatusReserva
  | .PENDIENTE => [.CONFIRMADA, .CANCELADA]
  | .CONFIRMADA => [.ENVIADA, .CANCELADA]
  | .ENVIADA => [.ENTREGADA, .CANCELADA]
  | _ => []

/-- authorization.ts canChangeReservaStatus, translated clause for clause. -/
def canChangeReservaStatus (userRole : Role) (currentStatus newStatus : StatusReserva) :
    Decision :=
  if currentStatus = .ENTREGADA ∨ currentStatus = .CANCELADA then
    { allowed := false
      reason := some "No se puede modificar una reserva entregada o cancelada" }
  else if currentStatus = newStatus then
    { allowed := false, reason := some "La reserva ya tiene este estado" }
  else
    match userRole with
    | .ADMIN_PRINCIPAL =>
      if newStatus ∈ adminValidTransitions currentStatus then
        { allowed := true, reason := none }
      else
        { allowed := false
          reason := some ("No se puede cambiar de " ++ currentStatus.str ++ " a " ++ newStatus.str) }
    | .Usuario =>
      if currentStatus = .CONFIRMADA ∧ newStatus = .ENVIADA then
        { allowed := true, reason := none }
      else
        { allowed := false
          reason := some "Solo puedes cambiar reservas confirmadas a enviadas" }

/-- prisma periodoLibras.findUnique by id. -/
def periodoById (s : State) (pid : ℕ) : Option Periodo :=
  s.periodos.find? (fun p => p.id == pid)

/-- prisma reserva.findUnique by id, returning the containing period as
well (the row periodoId field always names its containing period). -/
def findReserva (s : State) (rid : ℕ) : Option (Periodo × Reserva) :=
  s.periodos.findSome? (fun p =>
    (p.reservas.find? (fun r => r.id == rid)).map (fun r => (p, r)))

/-- reservaController.ts calcularLibrasDisponibles: total capacity of the
period minus the non-cancelled reserved pounds, optionally excluding one
reservation row; none when the period does not exist. -/
def calcularLibrasDisponibles (s : State) (pid : ℕ) (excludeReservaId : Option ℕ) :
    Option ℚ :=
  (periodoById s pid).map (fun p =>
    p.librasTotales - sumLibrasNoCanceladas
      (p.reservas.filter (fun r =>
        match excludeReservaId with
        | some e => !(r.id == e)
        | none => true)))

/-- Insert a period into a list sorted ascending by fechaEnvio. -/
def insertPeriodo (p : Periodo) : List Periodo → List Periodo
  | [] => [p]
  | q :: qs => if p.fechaEnvio ≤ q.fechaEnvio then p :: q :: qs else q :: insertPeriodo p qs

/-- Sort periods ascending by fechaEnvio (the orderBy fechaEnvio asc of the
candidate query). -/
def sortPeriodosByFechaEnvio : List Periodo → List Periodo
  | [] => []
  | p :: ps => insertPeriodo p (sortPeriodosByFechaEnvio ps)

/-- Candidate period set of createReserva: either the explicitly chosen
active period (none when it does not exist or is inactive), or all active
periods whose fechaEnvio is on or after the requested date, ascending. -/
def periodosCandidatos (s : State) (fechaReserva : ℤ) (periodoId : Option ℕ) :
    Option (List Periodo) :=
  match periodoId with
  | some pid =>
    match s.periodos.find? (fun p => p.id == pid && p.isActive) with
    | none => none
    | some p => some [p]
  | none =>
    some (sortPeriodosByFechaEnvio
      (s.periodos.filter (fun p => p.isActive && decide (fechaReserva ≤ p.fechaEnvio))))

/-- One entry of the allocation plan of createReserva. -/
structure PlanEntry where
  periodo : Periodo
  libras : ℚ
  fecha : ℤ
deriving DecidableEq, Repr

/-- The plan-building loop of createReserva: walk the ordered candidates,
allocating min remaining libras to each period with positive availability,
skipping chunks below the 0.01 granularity; returns the plan together with
the pounds left unassigned.  The Bool argument tracks whether the plan is
still empty (planDeReservas.length === 0 in the source). -/
def buildPlan (fechaReserva : ℤ) : List Periodo → ℚ → Bool → List PlanEntry × ℚ
  | [], restantes, _ => ([], restantes)
  | p :: ps, restantes, primera =>
    if restantes ≤ 0 then ([], restantes)
    else
      let librasReservadas := sumLibrasNoCanceladas p.reservas
      let librasDisponibles := p.librasTotales - librasReservadas
      if 0 < librasDisponibles then
        let librasParaEstePeriodo := min restantes librasDisponibles
        if 1 / 100 ≤ librasParaEstePeriodo then
          let fechaChunk :=
            if primera ∧ fechaReserva = p.fechaEnvio then fechaReserva else p.fechaEnvio
          let rest := buildPlan fechaReserva ps (restantes - librasParaEstePeriodo) false
          (⟨p, librasParaEstePeriodo, fechaChunk⟩ :: rest.1, rest.2)
        else
          buildPlan fechaReserva ps restantes primera
      else
        buildPlan fechaReserva ps restantes primera

/-- Error results of the mutating controllers. -/
inductive OpError where
  | notFound (msg : String)
  | forbidden (msg : String)
  | badRequest (msg : String)
deriving DecidableEq, Repr

/-- Error results of createReserva.  insuficiente carries the maximum
satisfiable weight and the shortfall that the source renders with
toFixed 2 in its message. -/
inductive CreateReservaError where
  | periodoInvalido
  | noActivePeriods
  | insuficiente (maxReservables faltantes : ℚ)
deriving DecidableEq, Repr

/-- Request body of POST /api/reservas (CreateReservaDTO plus the optional
periodoId). -/
structure CreateReservaInput where
  libras : ℚ
  fecha : ℤ
  estado : String
  observaciones : Option String
  periodoId : Option ℕ
deriving DecidableEq, Repr

/-- JS falsy coalescing observaciones || null used by the source when
persisting the first chunk. -/
def orNullIfEmpty : Option String → Option String
  | some s => if s = "" then none else some s
  | none => none

/-- Notes stored for the chunk at position i: the original notes for the
first row, the part annotation for every later row. -/
def mkObservaciones (i : ℕ) (obs : Option String) : Option String :=
  if i = 0 then orNullIfEmpty obs
  else some ("Reserva dividida - Parte " ++ toString (i + 1) ++ ". " ++ obs.getD "")

/-- The reservation row created for the plan entry at position i; status
defaults to PENDIENTE (prisma schema default, spec 4.2 step 6). -/
def mkReservaFromPlan (user : UserRef) (nextId : ℕ) (input : CreateReservaInput)
    (i : ℕ) (e : PlanEntry) : Reserva :=
  { id := nextId + i
    userId := user.id
    userName := user.name
    userEmail := user.email
    periodoId := e.periodo.id
    libras := e.libras
    fecha := e.fecha
    estado := input.estado
    observaciones := mkObservaciones i input.observaciones
    status := .PENDIENTE
    fechaConfirmacion := none
    fechaEnvio := none
    fechaEntrega := none }

/-- prisma reserva.create: attach a new row to the period named by pid. -/
def addReservaToPeriodo (s : State) (pid : ℕ) (r : Reserva) : State :=
  { s with periodos := s.periodos.map (fun p =>
      if p.id = pid then { p with reservas := r :: p.reservas } else p) }

/-- The commit loop of createReserva: create one reservation row per plan
entry, returning the new state and the created rows in order. -/
def commitPlan (user : UserRef) (nextId : ℕ) (input : CreateReservaInput) :
    State → ℕ → List PlanEntry → State × List Reserva
  | s, _, [] => (s, [])
  | s, i, e :: es =>
    let r := mkReservaFromPlan user nextId input i e
    let s1 := addReservaToPeriodo s e.periodo.id r
    let rest := commitPlan user nextId input s1 (i + 1) es
    (rest.1, r :: rest.2)

/-- reservaController.ts createReserva: fetch candidates, build the full
plan first, abort with the shortfall error when pounds remain unassigned,
and only then create the rows. -/
def createReserva (s : State) (user : UserRef) (nextId : ℕ) (input : CreateReservaInput) :
    State × Except CreateReservaError (List Reserva) :=
  let librasDecimal := parseDecimal input.libras
  match periodosCandidatos s input.fecha input.periodoId with
  | none => (s, .error .periodoInvalido)
  | some periodosActivos =>
    if periodosActivos.isEmpty then (s, .error .noActivePeriods)
    else
      let plan := buildPlan input.fecha periodosActivos librasDecimal true
      if 0 < plan.2 then
        (s, .error (.insuficiente (librasDecimal - plan.2) plan.2))
      else
        let committed := commitPlan user nextId input s 0 plan.1
        (committed.1, .ok committed.2)

/-- Request body of PATCH /api/reservas/:reservaId (UpdateReservaDTO);
an outer none means the field is absent from the body. -/
structure UpdateReservaInput where
  libras : Option ℚ
  estado : Option String
  observaciones : Option (Option String)
  status : Option StatusReserva
deriving DecidableEq, Repr

/-- Build the updateData patch of updateReserva and apply it to the row:
libras when validated, estado when a truthy string, observaciones whenever
present, status whenever present. -/
def applyUpdate (input : UpdateReservaInput) (librasDecimal : Option ℚ) (r : Reserva) :
    Reserva :=
  let r1 := match librasDecimal with
    | some l => { r with libras := l }
    | none => r
  let r2 := match input.estado with
    | some e => if e = "" then r1 else { r1 with estado := e }
    | none => r1
  let r3 := match input.observaciones with
    | some o => { r2 with observaciones := o }
    | none => r2
  match input.status with
  | some st => { r3 with status := st }
  | none => r3

/-- prisma reserva.update by id: rewrite the row named rid in place. -/
def mapReserva (s : State) (rid : ℕ) (f : Reserva → Reserva) : State :=
  { s with periodos := s.periodos.map (fun p =>
      { p with reservas := p.reservas.map (fun r => if r.id = rid then f r else r) }) }

/-- reservaController.ts updateReserva: owner or admin may patch a
reservation; a new libras value is validated against the available pounds
of its current period (excluding the row itself); estado, observaciones
and status are written without further checks. -/
def updateReserva (s : State) (role : Role) (actorId : ℕ) (rid : ℕ)
    (input : UpdateReservaInput) : State × Except OpError Unit :=
  match findReserva s rid with
  | none => (s, .error (.notFound "Reserva no encontrada"))
  | some (_, reserva) =>
    if role = .Usuario ∧ reserva.userId ≠ actorId then
      (s, .error (.forbidden "No tienes permiso para editar esta reserva"))
    else
      match input.libras with
      | some l =>
        let librasDecimal := parseDecimal l
        match calcularLibrasDisponibles s reserva.periodoId (some rid) with
        | none => (s, .error (.notFound "Periodo no encontrado"))
        | some librasDisponibles =>
          if librasDisponibles < librasDecimal then
            (s, .error (.badRequest "No hay suficientes libras disponibles en este periodo"))
          else
            (mapReserva s rid (applyUpdate input (some librasDecimal)), .ok ())
      | none => (mapReserva s rid (applyUpdate input none), .ok ())

/-- The row update performed by an accepted status transition: set the
status and stamp the date field matching the destination state. -/
def statusStampedReserva (today : ℤ) (newStatus : StatusReserva) (r : Reserva) : Reserva :=
  let base := { r with status := newStatus }
  if newStatus = .CONFIRMADA then { base with fechaConfirmacion := some today }
  else if newStatus = .ENVIADA then { base with fechaEnvio := some today }
  else if newStatus = .ENTREGADA then { base with fechaEntrega := some today }
  else base

/-- reservaController.ts updateReservaStatus: check the transition with
canChangeReservaStatus, then set the status and stamp the matching date
field with the current calendar date. -/
def updateReservaStatus (s : State) (role : Role) (rid : ℕ) (newStatus : StatusReserva)
    (today : ℤ) : State × Except OpError Unit :=
  match findReserva s rid with
  | none => (s, .error (.notFound "Reserva no encontrada"))
  | some (_, reserva) =>
    let canChange := canChangeReservaStatus role reserva.status newStatus
    if canChange.allowed then
      (mapReserva s rid (statusStampedReserva today newStatus), .ok ())
    else
      (s, .error (.badRequest (canChange.reason.getD "No tienes permiso para cambiar este estado")))

/-- The effect of one updateReservaStatus request on the targeted row:
the stamped update when accepted, the row unchanged when rejected. -/
def statusStep (role : Role) (today : ℤ) (newStatus : StatusReserva) (r : Reserva) : Reserva :=
  if (canChangeReservaStatus role r.status newStatus).allowed then
    statusStampedReserva today newStatus r
  else r

/-- A sequence of status-change requests applied to one row. -/
def foldStatusSteps : List (Role × ℤ × StatusReserva) → Reserva → Reserva
  | [], r => r
  | c :: cs, r => foldStatusSteps cs (statusStep c.1 c.2.1 c.2.2 r)

/-- Inductive invariant tying each stamped date field to how far along the
lifecycle the row is. -/
def StampInv (r : Reserva) : Prop :=
  (r.fechaConfirmacion ≠ none → 1 ≤ r.status.rank) ∧
  (r.fechaEnvio ≠ none → 2 ≤ r.status.rank) ∧
  (r.fechaEntrega ≠ none → 3 ≤ r.status.rank)

/-- prisma reserva.delete by id: physically remove the row. -/
def removeReservaRows (s : State) (rid : ℕ) : State :=
  { s with periodos := s.periodos.map (fun p =>
      { p with reservas := p.reservas.filter (fun r => !(r.id == rid)) }) }

/-- reservaController.ts deleteReserva: owner or admin may delete; the row
is removed physically with no further checks. -/
def deleteReserva (s : State) (role : Role) (actorId : ℕ) (rid : ℕ) :
    State × Except OpError Unit :=
  match findReserva s rid with
  | none => (s, .error (.notFound "Reserva no encontrada"))
  | some (_, reserva) =>
    if role = .Usuario ∧ reserva.userId ≠ actorId then
      (s, .error (.forbidden "No tienes permiso para eliminar esta reserva"))
    else
      (removeReservaRows s rid, .ok ())

/-- The updateData write of updatePeriodo: librasTotales only when truthy
(a 0 value is dropped by the if (librasTotales) guard), fechaEnvio whenever
present. -/
def applyPeriodoUpdate (s : State) (pid : ℕ) (librasTotales : Option ℚ)
    (fechaEnvio : Option ℤ) : State :=
  { s with periodos := s.periodos.map (fun p =>
      if p.id = pid then
        let p1 := match librasTotales with
          | some lt => if lt = 0 then p else { p with librasTotales := lt }
          | none => p
        match fechaEnvio with
        | some fe => { p1 with fechaEnvio := fe }
        | none => p1
      else p) }

/-- periodoController.ts updatePeriodo: a reduction of librasTotales below
the committed non-cancelled weight is rejected with a precise error. -/
def updatePeriodo (s : State) (pid : ℕ) (librasTotales : Option ℚ)
    (fechaEnvio : Option ℤ) : State × Except OpError Unit :=
  match periodoById s pid with
  | none => (s, .error (.notFound "Periodo no encontrado"))
  | some periodo =>
    match librasTotales with
    | some lt =>
      if lt < periodo.librasTotales ∧ lt < sumLibrasNoCanceladas periodo.reservas then
        (s, .error (.badRequest "No se puede reducir el total"))
      else (applyPeriodoUpdate s pid librasTotales fechaEnvio, .ok ())
    | none => (applyPeriodoUpdate s pid librasTotales fechaEnvio, .ok ())

/-- The aggregate snapshot row written by closePeriodo: statistics over the
non-cancelled reservations only. -/
def mkHistoricoPeriodo (p : Periodo) : HistoricoPeriodo :=
  let reservasActivas := p.reservas.filter (fun r => !r.status.isCancelada)
  { librasTotales := p.librasTotales
    librasReservadas := sumLibrasNoCanceladas p.reservas
    librasDisponibles := p.librasTotales - sumLibrasNoCanceladas p.reservas
    fechaEnvio := p.fechaEnvio
    totalReservas := reservasActivas.length
    totalUsuarios := (reservasActivas.map (fun r => r.userId)).dedup.length }

/-- The denormalised per-reservation history row written by closePeriodo
(cancelled rows included). -/
def mkHistoricoReserva (p : Periodo) (r : Reserva) : HistoricoReserva :=
  { userId := r.userId
    userName := r.userName
    userEmail := r.userEmail
    libras := r.libras
    fecha := r.fecha
    estado := r.estado
    observaciones := r.observaciones
    status := r.status
    periodoFechaEnvio := p.fechaEnvio
    reservaOriginalId := r.id }

/-- The four sequential writes of closePeriodo applied one after another;
k is how many of them complete.  The source issues them as separate awaits
with no surrounding transaction, so a storage failure after the k-th write
leaves exactly the first k writes persisted. -/
def closePeriodoSteps (s : State) (p : Periodo) (pid : ℕ) (k : ℕ) : State :=
  let s1 := if 1 ≤ k then
      { s with historicoPeriodos := s.historicoPeriodos ++ [mkHistoricoPeriodo p] }
    else s
  let s2 := if 2 ≤ k then
      { s1 with historicoReservas := s1.historicoReservas ++ p.reservas.map (mkHistoricoReserva p) }
    else s1
  let s3 := if 3 ≤ k then
      { s2 with periodos := s2.periodos.map (fun q =>
          if q.id = pid then { q with reservas := [] } else q) }
    else s2
  if 4 ≤ k then
    { s3 with periodos := s3.periodos.map (fun q =>
        if q.id = pid then { q with isActive := false } else q) }
  else s3

/-- The persistent state left by a closePeriodo attempt whose storage layer
fails after the first k of the four writes completed. -/
def closePeriodoAfterWrites (s : State) (pid : ℕ) (k : ℕ) : State :=
  match periodoById s pid with
  | none => s
  | some p => closePeriodoSteps s p pid k

/-- periodoController.ts closePeriodo, all four writes completing: write
the aggregate history row, write one history row per reservation, delete
the live reservations of the period, deactivate the period. -/
def closePeriodo (s : State) (pid : ℕ) : State × Except OpError HistoricoPeriodo :=
  match periodoById s pid with
  | none => (s, .error (.notFound "Periodo no encontrado"))
  | some p => (closePeriodoSteps s p pid 4, .ok (mkHistoricoPeriodo p))

/-- Well-formedness of a store state: distinct period ids, distinct
reservation ids across the store, each row inside the period its periodoId
names, and nonnegative weights (the request validator enforces a strictly
positive weight on every created or updated row). -/
def WF (s : State) : Prop :=
  (s.periodos.map (fun p => p.id)).Nodup ∧
  (∀ p ∈ s.periodos, (p.reservas.map (fun r => r.id)).Nodup) ∧
  (∀ p ∈ s.periodos, ∀ q ∈ s.periodos, ∀ r ∈ p.reservas, ∀ t ∈ q.reservas,
    r.id = t.id → p = q ∧ r = t) ∧
  (∀ p ∈ s.periodos, ∀ r ∈ p.reservas, r.periodoId = p.id ∧ 0 ≤ r.libras)

/-- The central safety property: no period is overbooked by its
non-cancelled reservations. -/
def Inv (s : State) : Prop :=
  ∀ p ∈ s.periodos, sumLibrasNoCanceladas p.reservas ≤ p.librasTotales

instance {ε α : Type} [DecidableEq ε] [DecidableEq α] : DecidableEq (Except ε α) := fun x y =>
  match x, y with
  | .ok a, .ok b => if h : a = b then isTrue (by rw [h]) else isFalse (by simp [h])
  | .error a, .error b => if h : a = b then isTrue (by rw [h]) else isFalse (by simp [h])
  | .ok _, .error _ => isFalse (by simp)
  | .error _, .ok _ => isFalse (by simp)

instance (s : State) : Decidable (Inv s) := by
  unfold Inv; exact List.decidableBAll _ _

instance (s : State) : Decidable (WF s) := by
  unfold WF; infer_instance

instance (r : Reserva) : Decidable (StampInv r) := by
  unfold StampInv; infer_instance

/-- Shorthand reservation row for concrete store states. -/
def mkRow (rid uid pid : ℕ) (lb : ℚ) (st : StatusReserva) : Reserva :=
  { id := rid
    userId := uid
    userName := "u"
    userEmail := "u@x"
    periodoId := pid
    libras := lb
    fecha := 0
    estado := "CDMX"
    observaciones := none
    status := st
    fechaConfirmacion := none
    fechaEnvio := none
    fechaEntrega := none }

/-- Shorthand period row for concrete store states. -/
def mkPer (pid : ℕ) (total : ℚ) (fe : ℤ) (act : Bool) (rs : List Reserva) : Periodo :=
  { id := pid, librasTotales := total, fechaEnvio := fe, isActive := act, reservas := rs }

/-- Full period of 100 lb (a PENDIENTE row of 100) plus a CANCELADA row of
50: the store on which un-cancelling overbooks the period. -/
def sC1 : State :=
  ⟨[mkPer 1 100 0 true [mkRow 1 1 1 100 .PENDIENTE, mkRow 2 2 1 50 .CANCELADA]], [], []⟩

/-- PATCH body carrying only status PENDIENTE (legal per
updateReservaValidation, which only checks enum membership). -/
def inpC1 : UpdateReservaInput := ⟨none, none, none, some .PENDIENTE⟩

/-- Period of 100 lb with one PENDIENTE reservation of 40 lb and empty
history tables: the store for the archival fault-injection runs. -/
def sC2 : State := ⟨[mkPer 1 100 7 true [mkRow 1 1 1 40 .PENDIENTE]], [], []⟩

/-- Period holding one reservation already in the terminal status
ENTREGADA. -/
def sC5 : State := ⟨[mkPer 1 100 0 true [mkRow 1 1 1 40 .ENTREGADA]], [], []⟩

/-- PATCH body editing only the notes field. -/
def inpC5 : UpdateReservaInput := ⟨none, none, some (some "editada"), none⟩

/-- Single active period with 10 lb available. -/
def sC3 : State := ⟨[mkPer 1 10 0 true []], [], []⟩

/-- A concrete authenticated actor. -/
def uX : UserRef := ⟨1, "Ana", "ana@x"⟩

/-- Request for 20 lb against sC3: 10 lb short. -/
def inpC3 : CreateReservaInput := ⟨20, 0, "CDMX", none, none⟩

/-- Period with a PENDIENTE row of 30 lb and a CANCELADA row of 20 lb, to
be closed and archived. -/
def sC6 : State :=
  ⟨[mkPer 1 100 3 true [mkRow 1 1 1 30 .PENDIENTE, mkRow 2 2 1 20 .CANCELADA]], [], []⟩

/-- Two empty active periods of 30 lb (send date 0) and 50 lb (send date
1): the split-determinism scenario at concrete dates. -/
def sC7 : State := ⟨[mkPer 1 30 0 true [], mkPer 2 50 1 true []], [], []⟩

/-- Request for 60 lb dated at the send date of the first period. -/
def inpC7 : CreateReservaInput := ⟨60, 0, "CDMX", none, none⟩

/-- A freshly created PENDIENTE row with no stamped dates. -/
def rowC8 : Reserva := mkRow 1 1 1 40 .PENDIENTE

/-- Three active periods: the earliest (send date 0) is completely full,
the later two (send dates 5 and 9) are empty. -/
def sC9 : State :=
  ⟨[mkPer 1 10 0 true [mkRow 1 1 1 10 .PENDIENTE],
    mkPer 2 50 5 true [],
    mkPer 3 50 9 true []], [], []⟩

/-- Request for 60 lb dated exactly at the send date of the full first
candidate period. -/
def inpC9 : CreateReservaInput := ⟨60, 0, "CDMX", none, none⟩

/-- Period of 100 lb holding one ENTREGADA reservation of 40 lb owned by
user 7. -/
def sC10 : State := ⟨[mkPer 1 100 0 true [mkRow 1 7 1 40 .ENTREGADA]], [], []⟩

theorem sumLibras_nil : sumLibrasNoCanceladas [] = 0 := rfl

theorem sumLibras_cons (r : Reserva) (rs : List Reserva) :
    sumLibrasNoCanceladas (r :: rs) =
      (if r.status.isCancelada then 0 else r.libras) + sumLibrasNoCanceladas rs := by
  by_cases h : r.status.isCancelada = true <;>
    simp [sumLibrasNoCanceladas, List.filter_cons, h]

theorem sumLibras_nonneg (rs : List Reserva) (h : ∀ r ∈ rs, 0 ≤ r.libras) :
    0 ≤ sumLibrasNoCanceladas rs := by
  induction rs with
  | nil => simp [sumLibras_nil]
  | cons r t ih =>
    rw [sumLibras_cons]
    have h1 : 0 ≤ r.libras := h r (by simp)
    have h2 := ih fun x hx => h x (by simp [hx])
    by_cases hc : r.status.isCancelada = true <;> simp [hc] <;> linarith

theorem sumLibras_perm {rs1 rs2 : List Reserva} (h : rs1.Perm rs2) :
    sumLibrasNoCanceladas rs1 = sumLibrasNoCanceladas rs2 :=
  ((h.filter _).map _).sum_eq

/-- find? over a cons whose head satisfies the predicate. -/
theorem find?_cons_true {α : Type} (pred : α → Bool) (a : α) (t : List α)
    (h : pred a = true) : (a :: t).find? pred = some a :=
  List.find?_cons_of_pos _ h

/-- find? over a cons whose head fails the predicate. -/
theorem find?_cons_false {α : Type} (pred : α → Bool) (a : α) (t : List α)
    (h : pred a = false) : (a :: t).find? pred = t.find? pred :=
  List.find?_cons_of_neg _ (by simp [h])

/-- A list with pairwise distinct ids is a permutation of any of its
members consed onto the rest of the list. -/
theorem perm_cons_filter (rs : List Reserva) (r : Reserva)
    (hnd : (rs.map (fun x => x.id)).Nodup) (hr : r ∈ rs) :
    rs.Perm (r :: rs.filter (fun x => !(x.id == r.id))) := by
  induction rs with
  | nil => cases hr
  | cons a t ih =>
    rcases List.mem_cons.mp hr with h | h
    · subst h
      have hfil : t.filter (fun x => !(x.id == r.id)) = t := by
        refine List.filter_eq_self.mpr fun x hx => ?_
        have hne : x.id ≠ r.id := fun he =>
          (List.nodup_cons.mp hnd).1 (List.mem_map.mpr ⟨x, hx, he⟩)
        simp [hne]
      have hstep : (r :: t).filter (fun x => !(x.id == r.id)) = t := by
        rw [List.filter_cons]
        simp [hfil]
      rw [hstep]
    · have hne : (a.id == r.id) = false := beq_eq_false_iff_ne.mpr
        (fun he => (List.nodup_cons.mp hnd).1 (List.mem_map.mpr ⟨r, h, he.symm⟩))
      have hstep : (a :: t).filter (fun x => !(x.id == r.id)) =
          a :: t.filter (fun x => !(x.id == r.id)) := by
        rw [List.filter_cons]
        simp [hne]
      rw [hstep]
      exact ((ih (List.nodup_cons.mp hnd).2 h).cons a).trans (List.Perm.swap r a _)

/-- Removing one member from a list with distinct ids splits its
non-cancelled sum into the member contribution plus the rest. -/
theorem sumLibras_decompose (rs : List Reserva) (r : Reserva)
    (hnd : (rs.map (fun x => x.id)).Nodup) (hr : r ∈ rs) :
    sumLibrasNoCanceladas rs =
      (if r.status.isCancelada then 0 else r.libras) +
        sumLibrasNoCanceladas (rs.filter (fun x => !(x.id == r.id))) := by
  rw [sumLibras_perm (perm_cons_filter rs r hnd hr), sumLibras_cons]

/-- With no excluded row, the ledger query is total capacity minus the
whole non-cancelled sum of the period. -/
theorem calcular_none (s : State) (pid : ℕ) :
    calcularLibrasDisponibles s pid none =
      (periodoById s pid).map (fun p => p.librasTotales - sumLibrasNoCanceladas p.reservas) := by
  unfold calcularLibrasDisponibles
  congr 1
  funext q
  congr 1
  exact congrArg sumLibrasNoCanceladas (List.filter_true q.reservas)

/-- What a successful reservation lookup yields. -/
theorem findReserva_spec {s : State} {rid : ℕ} {p : Periodo} {r : Reserva}
    (h : findReserva s rid = some (p, r)) :
    p ∈ s.periodos ∧ r ∈ p.reservas ∧ r.id = rid := by
  obtain ⟨q, hq, hf⟩ := List.exists_of_findSome?_eq_some h
  match hfind : q.reservas.find? (fun x => x.id == rid) with
  | none => rw [hfind] at hf; simp at hf
  | some r0 =>
    rw [hfind] at hf
    simp at hf
    obtain ⟨hqp, hrr⟩ := hf
    subst hqp; subst hrr
    refine ⟨hq, List.mem_of_find?_eq_some hfind, ?_⟩
    simpa using List.find?_some hfind

/-- find? by id returns the unique member carrying that id. -/
theorem find?_eq_of_mem_nodup {l : List Periodo} {p : Periodo}
    (hnd : (l.map (fun q => q.id)).Nodup) (hp : p ∈ l) :
    l.find? (fun q => q.id == p.id) = some p := by
  induction l with
  | nil => cases hp
  | cons a t ih =>
    rcases List.mem_cons.mp hp with h | h
    · subst h
      exact find?_cons_true _ _ _ (by simp)
    · have hne : (a.id == p.id) = false := beq_eq_false_iff_ne.mpr
        (fun he => (List.nodup_cons.mp hnd).1 (List.mem_map.mpr ⟨p, h, he.symm⟩))
      rw [find?_cons_false _ a t hne]
      exact ih (List.nodup_cons.mp hnd).2 h

/-- find? by id commutes with mapping an id-preserving rewrite over the
list. -/
theorem find?_map_of_id (g : Periodo → Periodo) (hg : ∀ q, (g q).id = q.id)
    (l : List Periodo) (pid : ℕ) :
    (l.map g).find? (fun q => q.id == pid) = (l.find? (fun q => q.id == pid)).map g := by
  induction l with
  | nil => rfl
  | cons a t ih =>
    by_cases h : (a.id == pid) = true
    · rw [List.map_cons, find?_cons_true (fun q => q.id == pid) (g a) _ (by simp only [hg]; exact h),
        find?_cons_true (fun q => q.id == pid) a t h]
      rfl
    · have h2 : (a.id == pid) = false := by simpa using h
      rw [List.map_cons, find?_cons_false (fun q => q.id == pid) (g a) _ (by simp only [hg]; exact h2),
        find?_cons_false (fun q => q.id == pid) a t h2]
      exact ih

/-- Every chunk of the allocation plan is dated at the send date of its own
period (when the first-chunk condition of the source holds, the requested
date equals that send date, so the two branches agree). -/
theorem buildPlan_fecha (f : ℤ) :
    ∀ (cs : List Periodo) (rest : ℚ) (b : Bool),
      ∀ e ∈ (buildPlan f cs rest b).1, e.fecha = e.periodo.fechaEnvio := by
  intro cs
  induction cs with
  | nil => intro rest b e he; simp [buildPlan] at he
  | cons p ps ih =>
    intro rest b e he
    simp only [buildPlan] at he
    by_cases h0 : rest ≤ 0
    · simp [h0] at he
    · rw [if_neg h0] at he
      by_cases h1 : 0 < p.librasTotales - sumLibrasNoCanceladas p.reservas
      · rw [if_pos h1] at he
        by_cases h2 : (1 : ℚ) / 100 ≤ min rest (p.librasTotales - sumLibrasNoCanceladas p.reservas)
        · rw [if_pos h2] at he
          rcases List.mem_cons.mp he with h | h
          · subst h
            by_cases h3 : b = true ∧ f = p.fechaEnvio
            · simp only [if_pos h3]
              exact h3.2
            · simp only [if_neg h3]
          · exact ih _ _ e h
        · rw [if_neg h2] at he
          exact ih _ _ e he
      · rw [if_neg h1] at he
        exact ih _ _ e he

/-- The pounds left unassigned by the plan equal the requested pounds minus
the total planned pounds. -/
theorem buildPlan_rem (f : ℤ) :
    ∀ (cs : List Periodo) (rest : ℚ) (b : Bool),
      (buildPlan f cs rest b).2 =
        rest - ((buildPlan f cs rest b).1.map (fun e => e.libras)).sum := by
  intro cs
  induction cs with
  | nil => intro rest b; simp [buildPlan]
  | cons p ps ih =>
    intro rest b
    simp only [buildPlan]
    by_cases h0 : rest ≤ 0
    · simp [h0]
    · rw [if_neg h0]
      by_cases h1 : 0 < p.librasTotales - sumLibrasNoCanceladas p.reservas
      · rw [if_pos h1]
        by_cases h2 : (1 : ℚ) / 100 ≤ min rest (p.librasTotales - sumLibrasNoCanceladas p.reservas)
        · rw [if_pos h2]
          simp only [List.map_cons, List.sum_cons]
          rw [ih]
          ring
        · rw [if_neg h2]
          exact ih _ _
      · rw [if_neg h1]
        exact ih _ _

theorem twoDec_add {a b : ℚ} : TwoDec a → TwoDec b → TwoDec (a + b)
  | ⟨m, hm⟩, ⟨n, hn⟩ => ⟨m + n, by rw [hm, hn]; push_cast; ring⟩

theorem twoDec_sub {a b : ℚ} : TwoDec a → TwoDec b → TwoDec (a - b)
  | ⟨m, hm⟩, ⟨n, hn⟩ => ⟨m - n, by rw [hm, hn]; push_cast; ring⟩

theorem twoDec_zero : TwoDec 0 := ⟨0, by norm_num⟩

theorem twoDec_min {a b : ℚ} (ha : TwoDec a) (hb : TwoDec b) : TwoDec (min a b) := by
  rcases le_total a b with h | h
  · rwa [min_eq_left h]
  · rwa [min_eq_right h]

theorem twoDec_sumLibras (rs : List Reserva) (h : ∀ r ∈ rs, TwoDec r.libras) :
    TwoDec (sumLibrasNoCanceladas rs) := by
  induction rs with
  | nil => exact twoDec_zero
  | cons r t ih =>
    rw [sumLibras_cons]
    refine twoDec_add ?_ (ih fun x hx => h x (by simp [hx]))
    by_cases hc : r.status.isCancelada = true
    · simp only [hc, if_pos]
      exact twoDec_zero
    · simp only [hc, if_neg, Bool.false_eq_true, not_false_eq_true, if_false]
      exact h r (by simp)

theorem parseDecimal_twoDec (x : ℚ) : TwoDec (parseDecimal x) :=
  ⟨round (x * 100), rfl⟩

/-- The unassigned remainder of a plan built over two-decimal capacities,
weights and request stays a two-decimal quantity. -/
theorem buildPlan_twoDec (f : ℤ) :
    ∀ (cs : List Periodo) (rest : ℚ) (b : Bool),
      (∀ p ∈ cs, TwoDec p.librasTotales ∧ ∀ r ∈ p.reservas, TwoDec r.libras) →
      TwoDec rest →
      TwoDec (buildPlan f cs rest b).2 := by
  intro cs
  induction cs with
  | nil => intro rest b _ hrest; simpa [buildPlan] using hrest
  | cons p ps ih =>
    intro rest b hcs hrest
    have hp := hcs p (by simp)
    have hps : ∀ q ∈ ps, TwoDec q.librasTotales ∧ ∀ r ∈ q.reservas, TwoDec r.libras :=
      fun q hq => hcs q (by simp [hq])
    have hdisp : TwoDec (p.librasTotales - sumLibrasNoCanceladas p.reservas) :=
      twoDec_sub hp.1 (twoDec_sumLibras _ hp.2)
    simp only [buildPlan]
    by_cases h0 : rest ≤ 0
    · simpa [h0] using hrest
    · rw [if_neg h0]
      by_cases h1 : 0 < p.librasTotales - sumLibrasNoCanceladas p.reservas
      · rw [if_pos h1]
        by_cases h2 : (1 : ℚ) / 100 ≤ min rest (p.librasTotales - sumLibrasNoCanceladas p.reservas)
        · rw [if_pos h2]
          exact ih _ _ hps (twoDec_sub hrest (twoDec_min hrest hdisp))
        · rw [if_neg h2]
          exact ih _ _ hps hrest
      · rw [if_neg h1]
        exact ih _ _ hps hrest

/-- The rows created by the commit loop mirror the plan entries: same
period, same pounds, same date, in order. -/
theorem commitPlan_rows (user : UserRef) (nextId : ℕ) (input : CreateReservaInput) :
    ∀ (plan : List PlanEntry) (s : State) (i : ℕ),
      ((commitPlan user nextId input s i plan).2).map
          (fun r => (r.periodoId, r.libras, r.fecha)) =
        plan.map (fun e => (e.periodo.id, e.libras, e.fecha)) := by
  intro plan
  induction plan with
  | nil => intro s i; rfl
  | cons e es ih =>
    intro s i
    simp only [commitPlan, List.map_cons, mkReservaFromPlan, List.cons.injEq]
    exact ⟨trivial, ih _ _⟩

/-- Every accepted transition strictly advances the lifecycle rank. -/
theorem allowed_rank_lt : ∀ (role : Role) (a b : StatusReserva),
    (canChangeReservaStatus role a b).allowed = true → a.rank < b.rank := by
  decide

/-- The source status each stamping destination can be entered from, and
that no accepted transition targets PENDIENTE. -/
theorem allowed_sources : ∀ (role : Role) (a b : StatusReserva),
    (canChangeReservaStatus role a b).allowed = true →
      (b = .CONFIRMADA → a = .PENDIENTE) ∧ (b = .ENVIADA → a = .CONFIRMADA) ∧
      (b = .ENTREGADA → a = .ENVIADA) ∧ b ≠ .PENDIENTE := by
  decide

/-- C7: with two active periods P1 (send date d1, remaining capacity 30)
and P2 (send date d2 later than d1, remaining capacity 50), a request for
60 lb dated d1 creates exactly two reservations: 30 lb in P1 dated d1 and
30 lb in P2 dated d2 — the earliest-first greedy fill over candidates
ordered ascending by send date. -/
theorem claim_C7 (d1 d2 : ℤ) (T1 T2 : ℚ) (r1 r2 : List Reserva) (user : UserRef)
    (nextId : ℕ) (est : String) (obs : Option String)
    (hd : d1 < d2)
    (h1 : T1 - sumLibrasNoCanceladas r1 = 30)
    (h2 : T2 - sumLibrasNoCanceladas r2 = 50) :
    ∃ ra rb,
      (createReserva ⟨[⟨1, T1, d1, true, r1⟩, ⟨2, T2, d2, true, r2⟩], [], []⟩ user nextId
        ⟨60, d1, est, obs, none⟩).2 = .ok [ra, rb] ∧
      ra.periodoId = 1 ∧ ra.libras = 30 ∧ ra.fecha = d1 ∧
      rb.periodoId = 2 ∧ rb.libras = 30 ∧ rb.fecha = d2 := by
  have hcand : periodosCandidatos ⟨[⟨1, T1, d1, true, r1⟩, ⟨2, T2, d2, true, r2⟩], [], []⟩
      d1 none = some [⟨1, T1, d1, true, r1⟩, ⟨2, T2, d2, true, r2⟩] := by
    simp [periodosCandidatos, sortPeriodosByFechaEnvio, insertPeriodo, hd.le]
  have hpd : parseDecimal 60 = 60 := by
    norm_num [parseDecimal]
  have hplan : buildPlan d1 [⟨1, T1, d1, true, r1⟩, ⟨2, T2, d2, true, r2⟩] 60 true =
      ([⟨⟨1, T1, d1, true, r1⟩, 30, d1⟩, ⟨⟨2, T2, d2, true, r2⟩, 30, d2⟩], 0) := by
    norm_num [buildPlan, h1, h2, min_def]
  have hcre : (createReserva ⟨[⟨1, T1, d1, true, r1⟩, ⟨2, T2, d2, true, r2⟩], [], []⟩ user nextId
      ⟨60, d1, est, obs, none⟩).2 =
      .ok [mkReservaFromPlan user nextId ⟨60, d1, est, obs, none⟩ 0
            ⟨⟨1, T1, d1, true, r1⟩, 30, d1⟩,
          mkReservaFromPlan user nextId ⟨60, d1, est, obs, none⟩ 1
            ⟨⟨2, T2, d2, true, r2⟩, 30, d2⟩] := by
    simp only [createReserva, hcand, hpd, hplan]
    norm_num [commitPlan, addReservaToPeriodo]
  exact ⟨_, _, hcre, rfl, rfl, rfl, rfl, rfl, rfl⟩

/-- Witness for C7: the concrete instance d1 = 0, d2 = 1 with empty
periods of 30 lb and 50 lb. -/
theorem claim_C7_witness :
    ∃ ra rb,
      (createReserva ⟨[⟨1, 30, 0, true, []⟩, ⟨2, 50, 1, true, []⟩], [], []⟩ uX 100
        ⟨60, 0, "CDMX", none, none⟩).2 = .ok [ra, rb] ∧
      ra.periodoId = 1 ∧ ra.libras = 30 ∧ ra.fecha = 0 ∧
      rb.periodoId = 2 ∧ rb.libras = 30 ∧ rb.fecha = 1 :=
  claim_C7 0 1 30 50 [] [] uX 100 "CDMX" none (by norm_num)
    (by norm_num [sumLibrasNoCanceladas]) (by norm_num [sumLibrasNoCanceladas])

/-- C9 amended: every chunk of an allocation plan is dated at the send
date of its own period — the period the chunk actually lands in, not the
first element of the candidate list — so the first allocated chunk equals
the requested date exactly when the requested date equals the send date of
the period that first chunk lands in; and the created rows copy period,
pounds and date from their plan entries. -/
theorem claim_C9_amended :
    (∀ (f : ℤ) (cs : List Periodo) (rest : ℚ) (b : Bool),
      ∀ e ∈ (buildPlan f cs rest b).1,
        e.fecha = e.periodo.fechaEnvio ∧ (f = e.periodo.fechaEnvio → e.fecha = f)) ∧
    (∀ (user : UserRef) (nextId : ℕ) (input : CreateReservaInput) (plan : List PlanEntry)
        (s : State) (i : ℕ),
      ((commitPlan user nextId input s i plan).2).map
          (fun r => (r.periodoId, r.libras, r.fecha)) =
        plan.map (fun e => (e.periodo.id, e.libras, e.fecha))) := by
  constructor
  · intro f cs rest b e he
    have h := buildPlan_fecha f cs rest b e he
    exact ⟨h, fun hf => h.trans hf.symm⟩
  · intro user nextId input plan s i
    exact commitPlan_rows user nextId input plan s i

/-- Witness for the amended C9: the single chunk of a concrete plan is
dated at the send date of its period. -/
theorem claim_C9_witness :
    (⟨mkPer 1 30 0 true [], 10, 0⟩ : PlanEntry).fecha =
      (⟨mkPer 1 30 0 true [], 10, 0⟩ : PlanEntry).periodo.fechaEnvio := by
  have hplan : (buildPlan 0 [mkPer 1 30 0 true []] 10 true).1 =
      [⟨mkPer 1 30 0 true [], 10, 0⟩] := by
    norm_num [buildPlan, mkPer, sumLibrasNoCanceladas, min_def]
  exact (claim_C9_amended.1 0 [mkPer 1 30 0 true []] 10 true _
    (by rw [hplan]; exact List.mem_singleton.mpr rfl)).1

/-- C9 counterexample: in the store sC9 the requested date 0 equals the
send date of the first candidate period (which is full), the request is a
multi-period allocation split into two chunks, and the first allocated
chunk is dated 5 — the send date of the period it lands in — not the
requested date 0, contradicting the claim read against the first candidate
period. -/
theorem claim_C9_counterexample :
    periodosCandidatos sC9 0 none = some
      [mkPer 1 10 0 true [mkRow 1 1 1 10 .PENDIENTE],
        mkPer 2 50 5 true [], mkPer 3 50 9 true []] ∧
    (mkPer 1 10 0 true [mkRow 1 1 1 10 .PENDIENTE]).fechaEnvio = inpC9.fecha ∧
    ∃ ra rb, (createReserva sC9 uX 100 inpC9).2 = .ok [ra, rb] ∧
      ra.periodoId = 2 ∧ ra.libras = 50 ∧ ra.fecha = 5 ∧
      rb.periodoId = 3 ∧ rb.libras = 10 ∧ rb.fecha = 9 ∧
      ra.fecha ≠ inpC9.fecha := by
  refine ⟨rfl, rfl, ?_⟩
  have h2 : (createReserva sC9 uX 100 inpC9).2 =
      .ok [mkReservaFromPlan uX 100 inpC9 0 ⟨mkPer 2 50 5 true [], 50, 5⟩,
        mkReservaFromPlan uX 100 inpC9 1 ⟨mkPer 3 50 9 true [], 10, 9⟩] := by
    norm_num [createReserva, periodosCandidatos, sC9, mkPer, mkRow, inpC9, buildPlan,
      sumLibrasNoCanceladas, StatusReserva.isCancelada, commitPlan, addReservaToPeriodo,
      parseDecimal, insertPeriodo, sortPeriodosByFechaEnvio, min_def]
  refine ⟨_, _, h2, rfl, rfl, rfl, rfl, rfl, rfl, by decide⟩

/-- One status-change request preserves the stamp invariant, and each date
field is changed only when it was previously unset. -/
theorem statusStep_preserves (role : Role) (today : ℤ) (ns : StatusReserva) (r : Reserva)
    (hInv : StampInv r) :
    StampInv (statusStep role today ns r) ∧
    ((statusStep role today ns r).fechaConfirmacion = r.fechaConfirmacion ∨
      r.fechaConfirmacion = none) ∧
    ((statusStep role today ns r).fechaEnvio = r.fechaEnvio ∨ r.fechaEnvio = none) ∧
    ((statusStep role today ns r).fechaEntrega = r.fechaEntrega ∨ r.fechaEntrega = none) := by
  by_cases h : (canChangeReservaStatus role r.status ns).allowed = true
  · obtain ⟨hC, hE, hT, hP⟩ := allowed_sources role r.status ns h
    have hstep : statusStep role today ns r = statusStampedReserva today ns r := if_pos h
    obtain ⟨i1, i2, i3⟩ := hInv
    cases ns with
    | PENDIENTE => exact absurd rfl hP
    | CONFIRMADA =>
      have hr : r.status = .PENDIENTE := hC rfl
      have hfc : r.fechaConfirmacion = none := by
        by_contra hne
        have hx := i1 hne
        rw [hr] at hx
        simp [StatusReserva.rank] at hx
      have hfe : r.fechaEnvio = none := by
        by_contra hne
        have hx := i2 hne
        rw [hr] at hx
        simp [StatusReserva.rank] at hx
      have hft : r.fechaEntrega = none := by
        by_contra hne
        have hx := i3 hne
        rw [hr] at hx
        simp [StatusReserva.rank] at hx
      rw [hstep]
      refine ⟨⟨?_, ?_, ?_⟩, Or.inr hfc, Or.inl ?_, Or.inl ?_⟩ <;>
        simp [statusStampedReserva, StatusReserva.rank, hfe, hft]
    | ENVIADA =>
      have hr : r.status = .CONFIRMADA := hE rfl
      have hfe : r.fechaEnvio = none := by
        by_contra hne
        have hx := i2 hne
        rw [hr] at hx
        simp [StatusReserva.rank] at hx
      have hft : r.fechaEntrega = none := by
        by_contra hne
        have hx := i3 hne
        rw [hr] at hx
        simp [StatusReserva.rank] at hx
      rw [hstep]
      refine ⟨⟨?_, ?_, ?_⟩, Or.inl ?_, Or.inr hfe, Or.inl ?_⟩ <;>
        simp [statusStampedReserva, StatusReserva.rank, hft]
    | ENTREGADA =>
      have hr : r.status = .ENVIADA := hT rfl
      have hft : r.fechaEntrega = none := by
        by_contra hne
        have hx := i3 hne
        rw [hr] at hx
        simp [StatusReserva.rank] at hx
      rw [hstep]
      refine ⟨⟨?_, ?_, ?_⟩, Or.inl ?_, Or.inl ?_, Or.inr hft⟩ <;>
        simp [statusStampedReserva, StatusReserva.rank]
    | CANCELADA =>
      rw [hstep]
      refine ⟨⟨?_, ?_, ?_⟩, Or.inl ?_, Or.inl ?_, Or.inl ?_⟩ <;>
        simp [statusStampedReserva, StatusReserva.rank]
  · rw [statusStep, if_neg h]
    exact ⟨⟨hInv.1, hInv.2.1, hInv.2.2⟩, Or.inl rfl, Or.inl rfl, Or.inl rfl⟩

/-- Along any sequence of status-change requests starting from a row
satisfying the stamp invariant, a stamped date is never overwritten. -/
theorem foldStatusSteps_writeOnce :
    ∀ (cmds : List (Role × ℤ × StatusReserva)) (r : Reserva), StampInv r →
      StampInv (foldStatusSteps cmds r) ∧
      (∀ d, r.fechaConfirmacion = some d →
        (foldStatusSteps cmds r).fechaConfirmacion = some d) ∧
      (∀ d, r.fechaEnvio = some d → (foldStatusSteps cmds r).fechaEnvio = some d) ∧
      (∀ d, r.fechaEntrega = some d → (foldStatusSteps cmds r).fechaEntrega = some d) := by
  intro cmds
  induction cmds with
  | nil => exact fun r h => ⟨h, fun d hd => hd, fun d hd => hd, fun d hd => hd⟩
  | cons c cs ih =>
    intro r h
    obtain ⟨h1, h2, h3, h4⟩ := statusStep_preserves c.1 c.2.1 c.2.2 r h
    obtain ⟨j1, j2, j3, j4⟩ := ih _ h1
    simp only [foldStatusSteps]
    refine ⟨j1, ?_, ?_, ?_⟩
    · intro d hd
      rcases h2 with he | hn
      · exact j2 d (he.trans hd)
      · rw [hn] at hd
        cases hd
    · intro d hd
      rcases h3 with he | hn
      · exact j3 d (he.trans hd)
      · rw [hn] at hd
        cases hd
    · intro d hd
      rcases h4 with he | hn
      · exact j4 d (he.trans hd)
      · rw [hn] at hd
        cases hd

/-- C8: on an accepted transition the row gets the requested status and
exactly the date field matching the destination is stamped with the
current date (CONFIRMADA stamps fechaConfirmacion, ENVIADA stamps
fechaEnvio, ENTREGADA stamps fechaEntrega, CANCELADA stamps nothing); all
other row fields are unchanged; and along any sequence of status-change
requests from a row satisfying the stamp invariant, a date field once
written is never overwritten — in particular confirmedAt survives the
later CONFIRMADA to ENVIADA transition. -/
theorem claim_C8 :
    (∀ (role : Role) (today : ℤ) (ns : StatusReserva) (r : Reserva),
      (canChangeReservaStatus role r.status ns).allowed = true →
      ((statusStep role today ns r).status = ns ∧
       (ns = .CONFIRMADA → (statusStep role today ns r).fechaConfirmacion = some today ∧
          (statusStep role today ns r).fechaEnvio = r.fechaEnvio ∧
          (statusStep role today ns r).fechaEntrega = r.fechaEntrega) ∧
       (ns = .ENVIADA → (statusStep role today ns r).fechaEnvio = some today ∧
          (statusStep role today ns r).fechaConfirmacion = r.fechaConfirmacion ∧
          (statusStep role today ns r).fechaEntrega = r.fechaEntrega) ∧
       (ns = .ENTREGADA → (statusStep role today ns r).fechaEntrega = some today ∧
          (statusStep role today ns r).fechaConfirmacion = r.fechaConfirmacion ∧
          (statusStep role today ns r).fechaEnvio = r.fechaEnvio) ∧
       (ns = .CANCELADA → (statusStep role today ns r).fechaConfirmacion = r.fechaConfirmacion ∧
          (statusStep role today ns r).fechaEnvio = r.fechaEnvio ∧
          (statusStep role today ns r).fechaEntrega = r.fechaEntrega) ∧
       (statusStep role today ns r).id = r.id ∧
       (statusStep role today ns r).userId = r.userId ∧
       (statusStep role today ns r).periodoId = r.periodoId ∧
       (statusStep role today ns r).libras = r.libras ∧
       (statusStep role today ns r).fecha = r.fecha ∧
       (statusStep role today ns r).estado = r.estado ∧
       (statusStep role today ns r).observaciones = r.observaciones)) ∧
    (∀ (cmds : List (Role × ℤ × StatusReserva)) (r : Reserva), StampInv r →
      (∀ d, r.fechaConfirmacion = some d →
        (foldStatusSteps cmds r).fechaConfirmacion = some d) ∧
      (∀ d, r.fechaEnvio = some d → (foldStatusSteps cmds r).fechaEnvio = some d) ∧
      (∀ d, r.fechaEntrega = some d → (foldStatusSteps cmds r).fechaEntrega = some d)) := by
  constructor
  · intro role today ns r h
    have hstep : statusStep role today ns r = statusStampedReserva today ns r := if_pos h
    rw [hstep]
    cases ns <;> simp [statusStampedReserva]
  · intro cmds r h
    exact (foldStatusSteps_writeOnce cmds r h).2

/-- Witness for C8: from a fresh PENDIENTE row, an admin confirmation on
day 10 stamps fechaConfirmacion with day 10, and the later shipping
transition on day 20 leaves that stamp untouched. -/
theorem claim_C8_witness :
    (statusStep .ADMIN_PRINCIPAL 10 .CONFIRMADA rowC8).fechaConfirmacion = some 10 ∧
    (foldStatusSteps [(.ADMIN_PRINCIPAL, 20, .ENVIADA)]
        (statusStep .ADMIN_PRINCIPAL 10 .CONFIRMADA rowC8)).fechaConfirmacion = some 10 := by
  have h1 := claim_C8.1 .ADMIN_PRINCIPAL 10 .CONFIRMADA rowC8 (by rfl)
  have hfc : (statusStep .ADMIN_PRINCIPAL 10 .CONFIRMADA rowC8).fechaConfirmacion =
      some 10 := (h1.2.1 rfl).1
  have h2 := claim_C8.2 [(.ADMIN_PRINCIPAL, 20, .ENVIADA)]
    (statusStep .ADMIN_PRINCIPAL 10 .CONFIRMADA rowC8) (by decide)
  exact ⟨hfc, h2.1 10 hfc⟩

/-- C6: closing an existing period writes exactly one HistoricoPeriodo row
whose reservedWeight is the non-cancelled sum R, availableWeight is
totalCapacity minus R, reservationCount is the number of non-cancelled
reservations and distinctUserCount the number of distinct owners among
them; writes one HistoricoReserva row per reservation of the period,
cancelled included; leaves zero live reservations in the period; and sets
the active flag to false. -/
theorem claim_C6 (s : State) (pid : ℕ) (p : Periodo)
    (hfind : periodoById s pid = some p) :
    (closePeriodo s pid).2 = .ok (mkHistoricoPeriodo p) ∧
    (mkHistoricoPeriodo p).librasReservadas = sumLibrasNoCanceladas p.reservas ∧
    (mkHistoricoPeriodo p).librasDisponibles =
      p.librasTotales - sumLibrasNoCanceladas p.reservas ∧
    (mkHistoricoPeriodo p).librasTotales = p.librasTotales ∧
    (mkHistoricoPeriodo p).totalReservas =
      (p.reservas.filter (fun r => !r.status.isCancelada)).length ∧
    (mkHistoricoPeriodo p).totalUsuarios =
      ((p.reservas.filter (fun r => !r.status.isCancelada)).map (fun r => r.userId)).dedup.length ∧
    (closePeriodo s pid).1.historicoPeriodos = s.historicoPeriodos ++ [mkHistoricoPeriodo p] ∧
    (closePeriodo s pid).1.historicoReservas =
      s.historicoReservas ++ p.reservas.map (mkHistoricoReserva p) ∧
    periodoById (closePeriodo s pid).1 pid = some { p with reservas := [], isActive := false } := by
  have hfind2 : s.periodos.find? (fun q => q.id == pid) = some p := hfind
  have hid : p.id = pid := by simpa using List.find?_some hfind2
  have hclose : closePeriodo s pid = (closePeriodoSteps s p pid 4, .ok (mkHistoricoPeriodo p)) := by
    simp only [closePeriodo, hfind]
  refine ⟨by rw [hclose], rfl, rfl, rfl, rfl, rfl, by rw [hclose]; rfl, by rw [hclose]; rfl, ?_⟩
  rw [hclose]
  show ((s.periodos.map (fun q => if q.id = pid then { q with reservas := [] } else q)).map
      (fun q => if q.id = pid then { q with isActive := false } else q)).find?
      (fun q => q.id == pid) = _
  rw [find?_map_of_id (fun q => if q.id = pid then { q with isActive := false } else q)
      (fun q => by by_cases h : q.id = pid <;> simp [h]) _ pid,
    find?_map_of_id (fun q => if q.id = pid then { q with reservas := [] } else q)
      (fun q => by by_cases h : q.id = pid <;> simp [h]) _ pid,
    hfind2]
  simp [hid]

/-- Witness for C6: closing period 1 of sC6 (totalCapacity 100, one
PENDIENTE row of 30 lb and one CANCELADA row of 20 lb) archives
reservedWeight 30, availableWeight 70, one counted reservation and one
counted owner, writes two history rows, and leaves the period empty and
inactive. -/
theorem claim_C6_witness :
    (closePeriodo sC6 1).1.historicoPeriodos =
      [mkHistoricoPeriodo (mkPer 1 100 3 true
        [mkRow 1 1 1 30 .PENDIENTE, mkRow 2 2 1 20 .CANCELADA])] ∧
    (mkHistoricoPeriodo (mkPer 1 100 3 true
      [mkRow 1 1 1 30 .PENDIENTE, mkRow 2 2 1 20 .CANCELADA])).librasReservadas = 30 ∧
    (mkHistoricoPeriodo (mkPer 1 100 3 true
      [mkRow 1 1 1 30 .PENDIENTE, mkRow 2 2 1 20 .CANCELADA])).librasDisponibles = 70 ∧
    (mkHistoricoPeriodo (mkPer 1 100 3 true
      [mkRow 1 1 1 30 .PENDIENTE, mkRow 2 2 1 20 .CANCELADA])).totalReservas = 1 ∧
    (mkHistoricoPeriodo (mkPer 1 100 3 true
      [mkRow 1 1 1 30 .PENDIENTE, mkRow 2 2 1 20 .CANCELADA])).totalUsuarios = 1 ∧
    (closePeriodo sC6 1).1.historicoReservas.length = 2 ∧
    periodoById (closePeriodo sC6 1).1 1 = some (mkPer 1 100 3 false []) := by
  have h := claim_C6 sC6 1
    (mkPer 1 100 3 true [mkRow 1 1 1 30 .PENDIENTE, mkRow 2 2 1 20 .CANCELADA]) rfl
  refine ⟨?_, ?_, ?_, ?_, ?_, ?_, ?_⟩
  · rw [h.2.2.2.2.2.2.1]
    rfl
  · rw [h.2.1]
    simp [sumLibrasNoCanceladas, mkRow, mkPer, StatusReserva.isCancelada]
  · rw [h.2.2.1]
    simp [sumLibrasNoCanceladas, mkRow, mkPer, StatusReserva.isCancelada]
    norm_num
  · rw [h.2.2.2.2.1]
    rfl
  · rw [h.2.2.2.2.2.1]
    rfl
  · rw [h.2.2.2.2.2.2.2.1]
    rfl
  · rw [h.2.2.2.2.2.2.2.2]
    rfl

/-- C10: deleteReserva invoked by the owner or an admin on an existing
reservation succeeds and physically removes the row with no status-machine
or capacity check — the theorem carries no hypothesis on the reservation
status, terminal statuses included — and deleting a non-cancelled
reservation increases the remaining capacity of its period by exactly the
deleted weight. -/
theorem claim_C10 (s : State) (role : Role) (actorId rid : ℕ) (p : Periodo) (r : Reserva)
    (hWF : WF s) (hfind : findReserva s rid = some (p, r))
    (hperm : role = .ADMIN_PRINCIPAL ∨ r.userId = actorId) :
    (deleteReserva s role actorId rid).2 = .ok () ∧
    findReserva (deleteReserva s role actorId rid).1 rid = none ∧
    (r.status.isCancelada = false →
      calcularLibrasDisponibles (deleteReserva s role actorId rid).1 r.periodoId none =
        (calcularLibrasDisponibles s r.periodoId none).map (fun d => d + r.libras)) := by
  obtain ⟨hp, hrp, hrid⟩ := findReserva_spec hfind
  have hnotden : ¬(role = .Usuario ∧ r.userId ≠ actorId) := by
    rcases hperm with h | h
    · rintro ⟨h1, _⟩
      rw [h] at h1
      cases h1
    · rintro ⟨_, h2⟩
      exact h2 h
  have hdel : deleteReserva s role actorId rid = (removeReservaRows s rid, .ok ()) := by
    simp only [deleteReserva, hfind]
    rw [if_neg hnotden]
  rw [hdel]
  refine ⟨rfl, ?_, ?_⟩
  · show findReserva (removeReservaRows s rid) rid = none
    refine List.findSome?_eq_none_iff.mpr fun q hq => ?_
    obtain ⟨p0, _, hq0⟩ := List.mem_map.mp hq
    have hnone : (p0.reservas.filter (fun x => !(x.id == rid))).find?
        (fun x => x.id == rid) = none := by
      refine List.find?_eq_none.mpr fun x hx => ?_
      have hx2 := (List.mem_filter.mp hx).2
      simp at hx2 ⊢
      exact hx2
    rw [← hq0]
    simp [hnone]
  · intro hnc
    show calcularLibrasDisponibles (removeReservaRows s rid) r.periodoId none =
      (calcularLibrasDisponibles s r.periodoId none).map (fun d => d + r.libras)
    have hpid : r.periodoId = p.id := (hWF.2.2.2 p hp r hrp).1
    have hndres : (p.reservas.map (fun x => x.id)).Nodup := hWF.2.1 p hp
    have hold : periodoById s r.periodoId = some p := by
      rw [hpid]
      exact find?_eq_of_mem_nodup hWF.1 hp
    have hnew : periodoById (removeReservaRows s rid) r.periodoId =
        some { p with reservas := p.reservas.filter (fun x => !(x.id == rid)) } := by
      show (s.periodos.map _).find? _ = _
      rw [find?_map_of_id (fun q => { q with reservas := q.reservas.filter (fun x => !(x.id == rid)) }) (fun q => rfl) s.periodos r.periodoId]
      rw [show s.periodos.find? (fun q => q.id == r.periodoId) = some p from hold]
      rfl
    have hsum : sumLibrasNoCanceladas p.reservas =
        r.libras + sumLibrasNoCanceladas (p.reservas.filter (fun x => !(x.id == rid))) := by
      have hdec := sumLibras_decompose p.reservas r hndres hrp
      rw [hnc] at hdec
      simpa [hrid] using hdec
    rw [calcular_none, calcular_none, hold, hnew]
    simp only [Option.map_some', Option.some.injEq]
    rw [hsum]
    ring

/-- Witness for C10: the owner deletes a reservation whose status is the
terminal ENTREGADA; the deletion succeeds, the row is gone and the period
regains the 40 lb. -/
theorem claim_C10_witness :
    (deleteReserva sC10 .Usuario 7 1).2 = .ok () ∧
    findReserva (deleteReserva sC10 .Usuario 7 1).1 1 = none ∧
    calcularLibrasDisponibles (deleteReserva sC10 .Usuario 7 1).1 1 none =
      (calcularLibrasDisponibles sC10 1 none).map (fun d => d + 40) := by
  have h := claim_C10 sC10 .Usuario 7 1 (mkPer 1 100 0 true [mkRow 1 7 1 40 .ENTREGADA])
    (mkRow 1 7 1 40 .ENTREGADA)
    (by simp [WF, sC10, mkPer, mkRow]) rfl (Or.inr rfl)
  exact ⟨h.1, h.2.1, h.2.2 rfl⟩

/-- C1: the claim states that after every operation — reservation creation,
reservation update, period capacity update — every period satisfies
sum of non-cancelled weights at most totalCapacity.  The code violates it:
updateReserva writes a status field from the request body with no
state-machine and no capacity check, so un-cancelling a 50 lb CANCELADA
reservation inside a full 100 lb period succeeds and leaves the period at
150 lb booked.  This theorem evaluates the embedded code on that failing
input: the store is well formed and satisfies the invariant before the
update, the update is accepted, and the invariant is false afterwards. -/
theorem claim_C1 :
    WF sC1 ∧ Inv sC1 ∧
    (updateReserva sC1 .Usuario 2 2 inpC1).2 = .ok () ∧
    ¬ Inv (updateReserva sC1 .Usuario 2 2 inpC1).1 := by
  refine ⟨?_, ?_, rfl, ?_⟩
  · simp [WF, sC1, mkPer, mkRow]
  · simp [Inv, sC1, mkPer, mkRow, sumLibrasNoCanceladas, StatusReserva.isCancelada]
  · intro h
    have := h (mkPer 1 100 0 true
        [mkRow 1 1 1 100 .PENDIENTE, { mkRow 2 2 1 50 .CANCELADA with status := .PENDIENTE }])
    simp [updateReserva, findReserva, sC1, mkPer, mkRow, inpC1, mapReserva, applyUpdate,
      sumLibrasNoCanceladas, StatusReserva.isCancelada] at this
    norm_num at this

/-- C2: the claim states that the archival steps 4 to 7 of closePeriodo are
atomic, any failure leaving the persistent state exactly as before the
attempt.  The source issues the four writes as separate awaits with no
transaction, so a storage failure between them persists a strict prefix of
the writes.  This theorem evaluates the embedded code on the failing input
sC2: a failure after the first, second or third write each leaves a state
different from the pre-attempt state, and after the third write the live
reservations are already deleted and the full history written while the
period is still active. -/
theorem claim_C2 :
    closePeriodoAfterWrites sC2 1 1 ≠ sC2 ∧
    closePeriodoAfterWrites sC2 1 2 ≠ sC2 ∧
    closePeriodoAfterWrites sC2 1 3 ≠ sC2 ∧
    (closePeriodoAfterWrites sC2 1 3).historicoPeriodos.length = 1 ∧
    (closePeriodoAfterWrites sC2 1 3).historicoReservas.length = 1 ∧
    ((closePeriodoAfterWrites sC2 1 3).periodos.map (fun p => (p.reservas.length, p.isActive)))
      = [(0, true)] := by
  refine ⟨?_, ?_, ?_, rfl, rfl, rfl⟩ <;>
    simp [closePeriodoAfterWrites, closePeriodoSteps, periodoById, sC2, mkPer, mkRow,
      mkHistoricoPeriodo, mkHistoricoReserva, State.mk.injEq]

/-- C3: whenever the requested weight cannot be fully covered by the
remaining capacities of the (nonempty) candidate period set, createReserva
returns the store unchanged — zero reservation rows created — together
with the shortfall error whose maximum-satisfiable amount equals the total
the greedy walk could plan and whose shortfall is the remainder; over a
store of two-decimal capacities and weights both reported amounts are
exact two-decimal quantities, so the toFixed 2 rendering is exact. -/
theorem claim_C3 (s : State) (user : UserRef) (nextId : ℕ) (input : CreateReservaInput)
    (cands : List Periodo)
    (hc : periodosCandidatos s input.fecha input.periodoId = some cands)
    (hne : cands ≠ [])
    (hrem : 0 < (buildPlan input.fecha cands (parseDecimal input.libras) true).2) :
    createReserva s user nextId input =
      (s, .error (.insuficiente
        (parseDecimal input.libras -
          (buildPlan input.fecha cands (parseDecimal input.libras) true).2)
        (buildPlan input.fecha cands (parseDecimal input.libras) true).2)) ∧
    parseDecimal input.libras -
        (buildPlan input.fecha cands (parseDecimal input.libras) true).2 =
      (((buildPlan input.fecha cands (parseDecimal input.libras) true).1).map
        (fun e => e.libras)).sum ∧
    ((∀ p ∈ cands, TwoDec p.librasTotales ∧ ∀ r ∈ p.reservas, TwoDec r.libras) →
      TwoDec (parseDecimal input.libras -
        (buildPlan input.fecha cands (parseDecimal input.libras) true).2) ∧
      TwoDec (buildPlan input.fecha cands (parseDecimal input.libras) true).2) := by
  have hne2 : cands.isEmpty = false := by
    cases cands with
    | nil => exact absurd rfl hne
    | cons a t => rfl
  refine ⟨?_, ?_, ?_⟩
  · simp [createReserva, hc, hne2, hrem]
  · rw [buildPlan_rem]
    ring
  · intro h2d
    have hr2 := buildPlan_twoDec input.fecha cands (parseDecimal input.libras) true h2d
      (parseDecimal_twoDec _)
    exact ⟨twoDec_sub (parseDecimal_twoDec _) hr2, hr2⟩

/-- Witness for C3: requesting 20 lb against a single active period with
10 lb available leaves the store unchanged and reports 10 lb satisfiable,
10 lb short. -/
theorem claim_C3_witness :
    createReserva sC3 uX 5 inpC3 = (sC3, .error (.insuficiente 10 10)) ∧
    TwoDec (10 : ℚ) := by
  have hd : parseDecimal inpC3.libras = 20 := by
    simp [parseDecimal, inpC3]
    norm_num
  have hval : (buildPlan inpC3.fecha [mkPer 1 10 0 true []]
      (parseDecimal inpC3.libras) true).2 = 10 := by
    rw [hd]
    simp [buildPlan, inpC3, mkPer, sumLibrasNoCanceladas]
    norm_num
  have hrem : 0 < (buildPlan inpC3.fecha [mkPer 1 10 0 true []]
      (parseDecimal inpC3.libras) true).2 := by
    rw [hval]
    norm_num
  have h := claim_C3 sC3 uX 5 inpC3 [mkPer 1 10 0 true []] rfl (by simp) hrem
  constructor
  · rw [h.1, hval, hd]
    norm_num
  · exact ⟨1000, by norm_num⟩

/-- C4: the status-change decision of canChangeReservaStatus equals the
claimed table — terminal current status rejected, no-op rejected, the admin
adjacency PENDIENTE to CONFIRMADA or CANCELADA, CONFIRMADA to ENVIADA or
CANCELADA, ENVIADA to ENTREGADA or CANCELADA, and for a non-privileged
actor exactly CONFIRMADA to ENVIADA — for every role, current status and
requested status. -/
theorem claim_C4 :
    ∀ role cur ns, (canChangeReservaStatus role cur ns).allowed = true ↔
      (¬(cur = .ENTREGADA ∨ cur = .CANCELADA) ∧ ns ≠ cur ∧
        ((role = .ADMIN_PRINCIPAL ∧
          ((cur = .PENDIENTE ∧ (ns = .CONFIRMADA ∨ ns = .CANCELADA)) ∨
           (cur = .CONFIRMADA ∧ (ns = .ENVIADA ∨ ns = .CANCELADA)) ∨
           (cur = .ENVIADA ∧ (ns = .ENTREGADA ∨ ns = .CANCELADA)))) ∨
         (role = .Usuario ∧ cur = .CONFIRMADA ∧ ns = .ENVIADA))) := by
  decide

/-- C5: the claim states that a reservation in a terminal status is never
modified by any mutating operation.  Only the dedicated status endpoint
checks for terminal states; updateReserva performs no such check, so
editing the notes of an ENTREGADA reservation succeeds and changes the
row.  This theorem evaluates the embedded code on that failing input. -/
theorem claim_C5 :
    (findReserva sC5 1).map (fun x => x.2.status) = some .ENTREGADA ∧
    (updateReserva sC5 .ADMIN_PRINCIPAL 9 1 inpC5).2 = .ok () ∧
    (updateReserva sC5 .ADMIN_PRINCIPAL 9 1 inpC5).1 ≠ sC5 ∧
    (findReserva (updateReserva sC5 .ADMIN_PRINCIPAL 9 1 inpC5).1 1).map
      (fun x => x.2.observaciones) = some (some "editada") := by
  refine ⟨rfl, rfl, ?_, rfl⟩
  simp [updateReserva, findReserva, sC5, mkPer, mkRow, inpC5, mapReserva, applyUpdate,
    State.mk.injEq, Periodo.mk.injEq, Reserva.mk.injEq]

end ReservasLibras

